import Mathlib

/-!
Shallow embedding of the `traefik-forward-auth` repository's validators
module (`pkg/utils/validators/validators.go`) and of the server lifecycle /
TLS-loading code (`Server.Run`, `Server.loadTLSConfig` in the server
package), together with proofs about the frozen claims.

Go strings handled byte-wise (indexing, `len`) are modelled as `List Nat`
of byte values; strings only compared to `""` or concatenated are modelled
as Lean `String`.
-/

namespace Validators

/-- One byte of the `Base64URL` character class, as tested by the loop body
of `Base64URL` in validators.go: `a-z`, `A-Z`, `0-9`, `_`, `-`
(bytes 97-122, 65-90, 48-57, 95, 45). -/
def isBase64Byte (c : Nat) : Bool :=
  decide ((97 ≤ c ∧ c ≤ 122) ∨ (65 ≤ c ∧ c ≤ 90) ∨ (48 ≤ c ∧ c ≤ 57) ∨ c = 95 ∨ c = 45)

/-- The character-checking loop of `Base64URL`: returns false as soon as a
byte outside the class is found, true when the whole string passes. -/
def base64urlLoop : List Nat → Bool
  | [] => true
  | c :: rest => if isBase64Byte c then base64urlLoop rest else false

/-- `Base64URL(val, expectLen)` from validators.go: length must equal
`expectLen`, then every byte must be in the base64-url class. -/
def Base64URL (val : List Nat) (expectLen : Nat) : Bool :=
  if val.length = expectLen then base64urlLoop val else false

/-- `ItemID(val)` from validators.go: a valid NanoID is a 21-character
base64-url string. -/
def ItemID (val : List Nat) : Bool :=
  Base64URL val 21

/-- A byte that is an ASCII letter, an underscore, or a hyphen: exactly the
bytes that set `nonNumeric := true` in the `IsHostname` loop. -/
def letterUnderscoreHyphen (c : Nat) : Bool :=
  decide ((97 ≤ c ∧ c ≤ 122) ∨ (65 ≤ c ∧ c ≤ 90) ∨ c = 95 ∨ c = 45)

/-- The per-byte loop of `IsHostname` in validators.go, carrying the Go
loop state (`last`, `nonNumeric`, `partlen`); the `[]` case is the code
after the loop (`if last == '-' || partlen > 63 { return false }; return
nonNumeric`). Byte 45 is `-`, 46 is `.`, 95 is `_`. -/
def hostnameLoop : List Nat → Nat → Bool → Nat → Bool
  | [], last, nonNum, partlen =>
      if last = 45 ∨ 63 < partlen then false else nonNum
  | c :: rest, last, nonNum, partlen =>
      if (97 ≤ c ∧ c ≤ 122) ∨ (65 ≤ c ∧ c ≤ 90) ∨ c = 95 then
        hostnameLoop rest c true (partlen + 1)
      else if 48 ≤ c ∧ c ≤ 57 then
        hostnameLoop rest c nonNum (partlen + 1)
      else if c = 45 then
        if last = 46 then false else hostnameLoop rest c true (partlen + 1)
      else if c = 46 then
        if last = 46 ∨ last = 45 then false
        else if 63 < partlen ∨ partlen = 0 then false
        else hostnameLoop rest c nonNum 0
      else false

/-- `IsHostname(s)` from validators.go: the root domain `"."` is valid;
then the length checks (`l == 0 || l > 254 || l == 254 && s[l-1] != '.'`),
then the loop starting from `last = '.'`, `nonNumeric = false`,
`partlen = 0`. -/
def IsHostname (s : List Nat) : Bool :=
  if s = [46] then true
  else
    let l := s.length
    if l = 0 ∨ 254 < l ∨ (l = 254 ∧ s.getLast? ≠ some 46) then false
    else hostnameLoop s 46 false 0

lemma base64urlLoop_eq_true_iff (val : List Nat) :
    base64urlLoop val = true ↔ ∀ c ∈ val, isBase64Byte c = true := by
  induction val with
  | nil => simp [base64urlLoop]
  | cons c rest ih =>
      by_cases h : isBase64Byte c = true
      · simp [base64urlLoop, h, ih]
      · simp [base64urlLoop, h]

lemma hostnameLoop_of_no_letter (s : List Nat) :
    ∀ last partlen : Nat,
      (∀ c ∈ s, letterUnderscoreHyphen c = false) →
      hostnameLoop s last false partlen = false := by
  induction s with
  | nil =>
      intro last partlen _
      simp only [hostnameLoop]
      split <;> rfl
  | cons c rest ih =>
      intro last partlen h
      have hc : letterUnderscoreHyphen c = false := h c (List.mem_cons_self c rest)
      have hrest : ∀ b ∈ rest, letterUnderscoreHyphen b = false := by
        intro b hb
        exact h b (List.mem_cons_of_mem c hb)
      have hcP : ¬ ((97 ≤ c ∧ c ≤ 122) ∨ (65 ≤ c ∧ c ≤ 90) ∨ c = 95 ∨ c = 45) := by
        simpa [letterUnderscoreHyphen] using hc
      have hNotAlpha : ¬ ((97 ≤ c ∧ c ≤ 122) ∨ (65 ≤ c ∧ c ≤ 90) ∨ c = 95) := by
        intro hx
        exact hcP (by tauto)
      have hNotDash : ¬ c = 45 := by
        intro hx
        exact hcP (by tauto)
      simp only [hostnameLoop, if_neg hNotAlpha]
      by_cases hdig : 48 ≤ c ∧ c ≤ 57
      · simp only [if_pos hdig]
        exact ih c (partlen + 1) hrest
      · simp only [if_neg hdig, if_neg hNotDash]
        by_cases hdot : c = 46
        · simp only [if_pos hdot]
          split
          · rfl
          · split
            · rfl
            · exact ih c 0 hrest
        · simp only [if_neg hdot]

end Validators

namespace ServerPkg

/-- The parsed certificate/key pair produced by `tls.X509KeyPair`
(external to the repository); modelled as the pair of PEM inputs it was
parsed from. -/
structure Certificate where
  certPEM : String
  keyPEM : String
deriving DecidableEq

/-- The `tlsCertProvider` returned by `newTLSCertProvider` (repository
code outside the sample); modelled abstractly by the directory it serves
from. Its `GetCertificateFn` and `Watch` are represented by the provider
value itself. -/
structure Provider where
  dir : String
deriving DecidableEq

/-- `crypto/tls` client-auth modes used by the code. -/
inductive ClientAuthType where
  | noClientCert
  | verifyClientCertIfGiven
  | requireAndVerifyClientCert
deriving DecidableEq

/-- The fields of `tls.Config` that `loadTLSConfig` sets. The CA pool
built by `x509.NewCertPool` + `AppendCertsFromPEM(caCert)` is modelled by
the PEM bytes appended to it. -/
structure TLSConfig where
  minVersion : Nat
  clientAuth : ClientAuthType := ClientAuthType.noClientCert
  clientCAs : Option String := none
  certificates : List Certificate := []
  getCertificate : Option Provider := none
deriving DecidableEq

/-- The configuration fields of `config.Get()` read by `loadTLSConfig`;
`loadedConfigPath` is `config.GetLoadedConfigPath()`. -/
structure Config where
  TLSPath : String
  loadedConfigPath : String
  TLSClientAuth : Bool
  TLSCAPEM : String
  TLSCertPEM : String
  TLSKeyPEM : String

/-- The external world `loadTLSConfig` interacts with: `filepath.Dir`,
`filepath.Join`, `os.ReadFile`, success of `CertPool.AppendCertsFromPEM`,
`tls.X509KeyPair`, and `newTLSCertProvider` (whose behavior — error, or
"no certificate files, no provider", or a provider — follows the spec's
Hot-Reload Provider construction contract, as its source is outside the
sample). -/
structure TLSEnv where
  dirOf : String → String
  joinPath : String → String → String
  readFile : String → Except String String
  appendCertsOk : String → Bool
  parseKeyPair : String → String → Except String Certificate
  newProvider : String → Except String (Option Provider)

/-- `minTLSVersion` constant (declared outside the sample); TLS 1.2. -/
def minTLSVersion : Nat := 0x0303

/-- `tlsCAFile`: the fixed CA filename read from the TLS directory.
Modelled from the spec: "a directory containing a CA certificate file
(fixed name)"; the constant's value is declared outside the sample. -/
def tlsCAFile : String := "ca.pem"

/-- The result of `loadTLSConfig`'s Go triple `(tlsConfig, watchFn, err)`:
`Except.error e` is `(nil, nil, err)`; `Except.ok none` is
`(nil, nil, nil)` (TLS disabled); `Except.ok (some (tc, w))` is a live
TLS config with optional watch function. -/
def LoadTLSResult : Type :=
  Except String (Option (TLSConfig × Option Provider))

/-- The `tlsPath` resolution at the top of `loadTLSConfig`: use
`cfg.TLSPath` if set; else the directory of the loaded config file, if
one was loaded; else empty. -/
def resolveTLSPath (env : TLSEnv) (cfg : Config) : String :=
  if cfg.TLSPath ≠ "" then cfg.TLSPath
  else if cfg.loadedConfigPath ≠ "" then env.dirOf cfg.loadedConfigPath
  else ""

/-- The CA-bytes acquisition inside the `cfg.TLSClientAuth` branch of
`loadTLSConfig`: inline PEM when non-empty, else read `tlsCAFile` from
the resolved directory, failing when no directory is resolvable or the
read fails. -/
def loadCABytes (env : TLSEnv) (cfg : Config) (tlsPath : String) :
    Except String String :=
  if cfg.TLSCAPEM ≠ "" then Except.ok cfg.TLSCAPEM
  else if tlsPath = "" then
    Except.error "cannot find a CA certificate, which is required when `tlsClientAuth` is enabled: no path specified in option `tlsPath`, and no config file was loaded"
  else
    match env.readFile (env.joinPath tlsPath tlsCAFile) with
    | Except.error e =>
        Except.error ("failed to load CA certificate file from path '" ++ tlsPath ++ "' and 'tlsClientAuth' option is enabled: " ++ e)
    | Except.ok b => Except.ok b

/-- The whole `cfg.TLSClientAuth` branch of `loadTLSConfig`: when client
auth is requested, produce the CA pool bytes (or fail, including on
`AppendCertsFromPEM` failure); when not requested, no pool. -/
def clientAuthPhase (env : TLSEnv) (cfg : Config) (tlsPath : String) :
    Except String (Option String) :=
  if cfg.TLSClientAuth then
    match loadCABytes env cfg tlsPath with
    | Except.error e => Except.error e
    | Except.ok caCert =>
        if env.appendCertsOk caCert then Except.ok (some caCert)
        else
          Except.error ("failed to import CA certificate from PEM found at path '" ++ tlsPath ++ "'")
  else Except.ok none

/-- `Server.loadTLSConfig` from the server package: resolve the TLS
directory, run the client-auth (mutual-TLS) phase, then load the server
certificate and key — from inline PEM values if both are present, from
the directory via a hot-reload provider if both are absent, disabling TLS
(no error) when no directory is resolvable, when the provider finds no
certificate files, or when exactly one of cert/key is set. -/
def loadTLSConfig (env : TLSEnv) (cfg : Config) : LoadTLSResult :=
  let tlsPath := resolveTLSPath env cfg
  match clientAuthPhase env cfg tlsPath with
  | Except.error e => Except.error e
  | Except.ok poolOpt =>
      let base : TLSConfig :=
        { minVersion := minTLSVersion
          clientAuth :=
            if poolOpt.isSome then ClientAuthType.verifyClientCertIfGiven
            else ClientAuthType.noClientCert
          clientCAs := poolOpt }
      if cfg.TLSCertPEM = "" ∧ cfg.TLSKeyPEM = "" then
        if tlsPath = "" then Except.ok none
        else
          match env.newProvider tlsPath with
          | Except.error e =>
              Except.error ("failed to load TLS certificates from path '" ++ tlsPath ++ "': " ++ e)
          | Except.ok none => Except.ok none
          | Except.ok (some p) =>
              Except.ok (some ({ base with getCertificate := some p }, some p))
      else if cfg.TLSCertPEM = "" ∨ cfg.TLSKeyPEM = "" then Except.ok none
      else
        match env.parseKeyPair cfg.TLSCertPEM cfg.TLSKeyPEM with
        | Except.error e =>
            Except.error ("failed to parse TLS certificate or key: " ++ e)
        | Except.ok cert =>
            Except.ok (some ({ base with certificates := [cert] }, none))

/-- The outcomes of the external interactions of one `Server.Run`
execution: whether metrics are enabled (`cfg.EnableMetrics`), the results
of `startAppServer` and `startMetricsServer`, the optional
`tlsCertWatchFn` and its result when invoked, and the errors (logged
only) reported by the two deferred `Shutdown` calls after the context is
canceled. -/
structure RunEnv where
  enableMetrics : Bool
  startApp : Except String Unit
  startMetrics : Except String Unit
  tlsCertWatchFn : Option (Except String Unit)
  appShutdownErr : Option String
  metricsShutdownErr : Option String

/-- Observable events of one `Server.Run` execution, in program order. -/
inductive RunEvent where
  | wgAdd
  | startAppSrv
  | startMetricsSrv
  | invokeWatch
  | ctxDone
  | shutdownMetricsSrv (err : Option String)
  | shutdownAppSrv (err : Option String)
  | wgDone
  | wgWait
  | storeRunningFalse
deriving DecidableEq

/-- The deferred actions `Run` registers, in the form they sit on the
defer stack (head = next to execute, LIFO). -/
inductive Deferred where
  | shutdownMetrics
  | shutdownApp
  | wgWait
  | storeRunning
deriving DecidableEq

/-- Execute the defer stack with the current wait-group counter.
`wg.Wait()` completes only when the counter is zero; a non-zero counter
blocks forever, so the remaining deferred actions (including
`running.Store(false)`) never execute. Returns the emitted events and
whether execution blocked. The two shutdown closures call `Shutdown`
(whose error is only logged) and then `wg.Done()`. -/
def execDeferreds (env : RunEnv) : List Deferred → Nat → List RunEvent × Bool
  | [], _ => ([], false)
  | Deferred.wgWait :: rest, wg =>
      if wg = 0 then
        let out := execDeferreds env rest wg
        (RunEvent.wgWait :: out.1, out.2)
      else ([], true)
  | Deferred.storeRunning :: rest, wg =>
      let out := execDeferreds env rest wg
      (RunEvent.storeRunningFalse :: out.1, out.2)
  | Deferred.shutdownApp :: rest, wg =>
      let out := execDeferreds env rest (wg - 1)
      (RunEvent.shutdownAppSrv env.appShutdownErr :: RunEvent.wgDone :: out.1, out.2)
  | Deferred.shutdownMetrics :: rest, wg =>
      let out := execDeferreds env rest (wg - 1)
      (RunEvent.shutdownMetricsSrv env.metricsShutdownErr :: RunEvent.wgDone :: out.1, out.2)

/-- The observable outcome of one `Run` execution: `returns = none` means
the call never returns (blocked in `wg.Wait()`); `runningAfter` is the
final value of the `running` flag. -/
structure RunOutcome where
  returns : Option (Except String Unit)
  events : List RunEvent
  runningAfter : Bool

/-- Leave `Run` with result `res`: execute the defer stack; if it blocks
on `wg.Wait()`, the call never returns and the `running` flag is never
reset. -/
def finishRun (env : RunEnv) (pre : List RunEvent) (ds : List Deferred)
    (wg : Nat) (res : Except String Unit) : RunOutcome :=
  let out := execDeferreds env ds wg
  { returns := if out.2 then none else some res
    events := pre ++ out.1
    runningAfter := out.2 }

/-- The tail of `Run` after both servers started: invoke `tlsCertWatchFn`
if present (propagating its error), else block on `<-ctx.Done()` and
return `nil` through the deferred cleanup. -/
def runWatchPhase (env : RunEnv) (pre : List RunEvent) (ds : List Deferred)
    (wg : Nat) : RunOutcome :=
  match env.tlsCertWatchFn with
  | some (Except.error e) =>
      finishRun env (pre ++ [RunEvent.invokeWatch]) ds wg
        (Except.error ("failed to watch for TLS certificates: " ++ e))
  | some (Except.ok _) =>
      finishRun env (pre ++ [RunEvent.invokeWatch, RunEvent.ctxDone]) ds wg
        (Except.ok ())
  | none =>
      finishRun env (pre ++ [RunEvent.ctxDone]) ds wg (Except.ok ())

/-- `Server.Run` from the server package. `running` is the value of the
atomic flag when `CompareAndSwap(false, true)` executes. Defers are
registered in order `running.Store(false)`, `wg.Wait()`, app shutdown,
(metrics shutdown), and execute in reverse. `wg.Add(1)` precedes each
server start; the matching `wg.Done()` lives inside the corresponding
deferred shutdown closure, which is registered only after the start
succeeds. -/
def run (env : RunEnv) (running : Bool) : RunOutcome :=
  if running then
    { returns := some (Except.error "server is already running")
      events := []
      runningAfter := running }
  else
    match env.startApp with
    | Except.error e =>
        finishRun env [RunEvent.wgAdd]
          [Deferred.wgWait, Deferred.storeRunning] 1
          (Except.error ("failed to start app server: " ++ e))
    | Except.ok _ =>
        if env.enableMetrics then
          match env.startMetrics with
          | Except.error e =>
              finishRun env
                [RunEvent.wgAdd, RunEvent.startAppSrv, RunEvent.wgAdd]
                [Deferred.shutdownApp, Deferred.wgWait, Deferred.storeRunning] 2
                (Except.error ("failed to start metrics server: " ++ e))
          | Except.ok _ =>
              runWatchPhase env
                [RunEvent.wgAdd, RunEvent.startAppSrv, RunEvent.wgAdd,
                  RunEvent.startMetricsSrv]
                [Deferred.shutdownMetrics, Deferred.shutdownApp,
                  Deferred.wgWait, Deferred.storeRunning] 2
        else
          runWatchPhase env [RunEvent.wgAdd, RunEvent.startAppSrv]
            [Deferred.shutdownApp, Deferred.wgWait, Deferred.storeRunning] 1

end ServerPkg


namespace ServerPkg

/-- An `Except` result is an error. -/
def isErr {α : Type} : Except String α → Bool
  | Except.error _ => true
  | Except.ok _ => false

/-- A sample environment: file reads fail, PEM parses succeed on
non-empty input, key pairs parse, providers are constructed. -/
def exEnvDefault : TLSEnv where
  dirOf := fun _ => "/etc/tfa"
  joinPath := fun a b => a ++ "/" ++ b
  readFile := fun _ => Except.error "open: no such file or directory"
  appendCertsOk := fun s => decide (s ≠ "")
  parseKeyPair := fun c k => Except.ok { certPEM := c, keyPEM := k }
  newProvider := fun p => Except.ok (some { dir := p })

/-- Config: inline cert without key, client auth off, no directory. -/
def cfgCertOnly : Config where
  TLSPath := ""
  loadedConfigPath := ""
  TLSClientAuth := false
  TLSCAPEM := ""
  TLSCertPEM := "CERT-PEM"
  TLSKeyPEM := ""

/-- Config: inline key without cert, client auth off, no directory. -/
def cfgKeyOnly : Config where
  TLSPath := ""
  loadedConfigPath := ""
  TLSClientAuth := false
  TLSCAPEM := ""
  TLSCertPEM := ""
  TLSKeyPEM := "KEY-PEM"

/-- Config: everything empty, client auth off. -/
def cfgAllEmpty : Config where
  TLSPath := ""
  loadedConfigPath := ""
  TLSClientAuth := false
  TLSCAPEM := ""
  TLSCertPEM := ""
  TLSKeyPEM := ""

/-- Config: client auth requested but no CA PEM and no directory. -/
def cfgMTLSNoCA : Config where
  TLSPath := ""
  loadedConfigPath := ""
  TLSClientAuth := true
  TLSCAPEM := ""
  TLSCertPEM := ""
  TLSKeyPEM := ""

/-- Config: client auth requested, inline CA, inline cert and key. -/
def cfgMTLSInline : Config where
  TLSPath := ""
  loadedConfigPath := ""
  TLSClientAuth := true
  TLSCAPEM := "CA-PEM"
  TLSCertPEM := "CERT-PEM"
  TLSKeyPEM := "KEY-PEM"

/-- Config: client auth requested with no CA material, but a valid inline
cert/key pair. -/
def cfgMTLSNoCAPair : Config where
  TLSPath := ""
  loadedConfigPath := ""
  TLSClientAuth := true
  TLSCAPEM := ""
  TLSCertPEM := "CERT-PEM"
  TLSKeyPEM := "KEY-PEM"

/-- Recognizes the metrics-server shutdown event. -/
def isShutdownMetricsEv : RunEvent → Bool
  | RunEvent.shutdownMetricsSrv _ => true
  | _ => false

/-- Recognizes the app-server shutdown event. -/
def isShutdownAppEv : RunEvent → Bool
  | RunEvent.shutdownAppSrv _ => true
  | _ => false

/-- Recognizes the `wg.Wait()` completion event. -/
def isWgWaitEv : RunEvent → Bool
  | RunEvent.wgWait => true
  | _ => false

/-- A run environment where everything starts cleanly, there is no watch
function, and both deferred shutdowns report (logged-only) errors. -/
def exRunEnvClean : RunEnv where
  enableMetrics := true
  startApp := Except.ok ()
  startMetrics := Except.ok ()
  tlsCertWatchFn := none
  appShutdownErr := some "context deadline exceeded"
  metricsShutdownErr := some "use of closed network connection"

/-- A run environment where both servers start but the certificate watch
function fails. -/
def exRunEnvWatchErr : RunEnv where
  enableMetrics := true
  startApp := Except.ok ()
  startMetrics := Except.ok ()
  tlsCertWatchFn := some (Except.error "inotify failure")
  appShutdownErr := some "shutdown timeout"
  metricsShutdownErr := some "already closed"

/-- The TLS config produced for `cfgMTLSInline` under `exEnvDefault`. -/
def exMTLSConfig : TLSConfig where
  minVersion := minTLSVersion
  clientAuth := ClientAuthType.verifyClientCertIfGiven
  clientCAs := some "CA-PEM"
  certificates := [{ certPEM := "CERT-PEM", keyPEM := "KEY-PEM" }]
  getCertificate := none

lemma loadTLSConfig_phase_error {env : TLSEnv} {cfg : Config} {e : String}
    (h : clientAuthPhase env cfg (resolveTLSPath env cfg) = Except.error e) :
    loadTLSConfig env cfg = Except.error e := by
  simp only [loadTLSConfig]
  rw [h]

lemma loadTLSConfig_isErr_of_phase {env : TLSEnv} {cfg : Config}
    (h : isErr (clientAuthPhase env cfg (resolveTLSPath env cfg)) = true) :
    isErr (loadTLSConfig env cfg) = true := by
  cases hph : clientAuthPhase env cfg (resolveTLSPath env cfg) with
  | error e => rw [loadTLSConfig_phase_error hph]; rfl
  | ok p => rw [hph] at h; exact absurd h (by simp [isErr])

lemma clientAuthPhase_isErr_of_ca {env : TLSEnv} {cfg : Config} {p : String}
    (hauth : cfg.TLSClientAuth = true)
    (h : isErr (loadCABytes env cfg p) = true) :
    isErr (clientAuthPhase env cfg p) = true := by
  unfold clientAuthPhase
  cases hca : loadCABytes env cfg p with
  | error e => simp [hauth, hca, isErr]
  | ok ca => rw [hca] at h; exact absurd h (by simp [isErr])

lemma clientAuthPhase_isErr_of_append {env : TLSEnv} {cfg : Config}
    {p : String} {ca : String}
    (hauth : cfg.TLSClientAuth = true)
    (hca : loadCABytes env cfg p = Except.ok ca)
    (happ : env.appendCertsOk ca = false) :
    isErr (clientAuthPhase env cfg p) = true := by
  simp [clientAuthPhase, hauth, hca, happ, isErr]

lemma clientAuthPhase_ok_elim {env : TLSEnv} {cfg : Config} {p : String}
    {poolOpt : Option String}
    (hauth : cfg.TLSClientAuth = true)
    (h : clientAuthPhase env cfg p = Except.ok poolOpt) :
    ∃ ca, poolOpt = some ca ∧ env.appendCertsOk ca = true := by
  unfold clientAuthPhase at h
  rw [hauth] at h
  simp only [if_true] at h
  cases hca : loadCABytes env cfg p with
  | error e => rw [hca] at h; exact absurd h (by simp)
  | ok ca =>
      rw [hca] at h
      simp only [] at h
      by_cases happ : env.appendCertsOk ca = true
      · rw [if_pos happ] at h
        refine ⟨ca, ?_, happ⟩
        injection h with h2
        exact h2.symm
      · rw [if_neg happ] at h
        exact absurd h (by simp)

lemma finishRun_returns_runningAfter {env : RunEnv} {pre : List RunEvent}
    {ds : List Deferred} {wg : Nat} {res : Except String Unit}
    {r : Except String Unit}
    (h : (finishRun env pre ds wg res).returns = some r) :
    (finishRun env pre ds wg res).runningAfter = false := by
  have h2 : (if (execDeferreds env ds wg).2 = true then none else some res) =
      some r := h
  show (execDeferreds env ds wg).2 = false
  cases hx : (execDeferreds env ds wg).2 with
  | false => rfl
  | true =>
      rw [hx] at h2
      simp at h2

lemma runWatchPhase_returns_runningAfter {env : RunEnv} {pre : List RunEvent}
    {ds : List Deferred} {wg : Nat} {r : Except String Unit}
    (h : (runWatchPhase env pre ds wg).returns = some r) :
    (runWatchPhase env pre ds wg).runningAfter = false := by
  unfold runWatchPhase at h ⊢
  cases hw : env.tlsCertWatchFn with
  | none =>
      rw [hw] at h
      exact finishRun_returns_runningAfter h
  | some res =>
      rw [hw] at h
      cases res with
      | error e => exact finishRun_returns_runningAfter h
      | ok u => exact finishRun_returns_runningAfter h

end ServerPkg

/-- C9: `ItemID(s)` returns true iff `s` has length exactly 21 and every
byte of `s` is an ASCII lowercase letter, uppercase letter, digit, `-` or
`_`; moreover `ItemID` is exactly `Base64URL(s, 21)`, so every string of a
different length is rejected. -/
theorem itemID_charset_length (val : List Nat) :
    (Validators.ItemID val = true ↔
      val.length = 21 ∧
        ∀ c ∈ val,
          (97 ≤ c ∧ c ≤ 122) ∨ (65 ≤ c ∧ c ≤ 90) ∨
            (48 ≤ c ∧ c ≤ 57) ∨ c = 45 ∨ c = 95) ∧
    Validators.ItemID val = Validators.Base64URL val 21 := by
  refine ⟨?_, rfl⟩
  unfold Validators.ItemID Validators.Base64URL
  by_cases hlen : val.length = 21
  · rw [if_pos hlen, Validators.base64urlLoop_eq_true_iff]
    constructor
    · intro h
      refine ⟨hlen, ?_⟩
      intro c hc
      have := h c hc
      simp only [Validators.isBase64Byte, decide_eq_true_eq] at this
      tauto
    · rintro ⟨-, h⟩ c hc
      simp only [Validators.isBase64Byte, decide_eq_true_eq]
      have := h c hc
      tauto
  · rw [if_neg hlen]
    constructor
    · intro h
      exact absurd h (by simp)
    · rintro ⟨h, -⟩
      exact absurd h hlen

/-- C9 witness: a concrete 21-byte base64-url string is accepted via the
theorem, and a 20-byte one is rejected. -/
theorem itemID_charset_length_witness :
    Validators.ItemID [86, 49, 83, 116, 71, 88, 82, 56, 95, 90, 53, 106,
      100, 72, 105, 54, 66, 45, 109, 121, 84] = true :=
  (itemID_charset_length _).1.mpr (by decide)

/-- C10: a string containing no ASCII letter, no underscore and no hyphen
is never a valid hostname, with the single exception of the root domain
`"."` (byte 46): `IsHostname` returns true exactly on `"."` among such
strings. -/
theorem isHostname_no_letter (s : List Nat)
    (h : ∀ c ∈ s, Validators.letterUnderscoreHyphen c = false) :
    Validators.IsHostname s = decide (s = [46]) := by
  by_cases hroot : s = [46]
  · simp [Validators.IsHostname, hroot]
  · have hdec : decide (s = [46]) = false := by simp [hroot]
    rw [hdec]
    unfold Validators.IsHostname
    rw [if_neg hroot]
    simp only []
    split
    · rfl
    · exact Validators.hostnameLoop_of_no_letter s 46 0 h

/-- C10 witness: the purely numeric dotted string `"127.0.0.1"` is
rejected, and the root domain `"."` is accepted, both via the theorem. -/
theorem isHostname_no_letter_witness :
    Validators.IsHostname [49, 50, 55, 46, 48, 46, 48, 46, 49] =
        decide (([49, 50, 55, 46, 48, 46, 48, 46, 49] : List Nat) = [46]) ∧
      Validators.IsHostname [46] = decide (([46] : List Nat) = [46]) :=
  ⟨isHostname_no_letter _ (by decide), isHostname_no_letter _ (by decide)⟩

/-- C1 counterexample: with the inline certificate PEM set and the key PEM
empty (client auth off, no directory), `loadTLSConfig` returns
`(nil, nil, nil)` — no error at all — contradicting the claim that a
partial cert/key pair is a fatal error. -/
theorem loadTLS_partial_pair_cex :
    ServerPkg.loadTLSConfig ServerPkg.exEnvDefault ServerPkg.cfgCertOnly =
        Except.ok none ∧
      ServerPkg.isErr
        (ServerPkg.loadTLSConfig ServerPkg.exEnvDefault ServerPkg.cfgCertOnly) =
        false :=
  ⟨rfl, rfl⟩

/-- C1 amended: for every configuration in which exactly one of the inline
TLS certificate PEM and key PEM is non-empty, and whose client-auth phase
does not itself fail, `loadTLSConfig` returns `(nil, nil, nil)`: TLS is
silently disabled with no error. -/
theorem loadTLS_partial_pair_silently_disabled
    (env : ServerPkg.TLSEnv) (cfg : ServerPkg.Config)
    (poolOpt : Option String)
    (hone :
      (cfg.TLSCertPEM = "" ∧ cfg.TLSKeyPEM ≠ "") ∨
        (cfg.TLSCertPEM ≠ "" ∧ cfg.TLSKeyPEM = ""))
    (hca : ServerPkg.clientAuthPhase env cfg (ServerPkg.resolveTLSPath env cfg) =
      Except.ok poolOpt) :
    ServerPkg.loadTLSConfig env cfg = Except.ok none := by
  simp only [ServerPkg.loadTLSConfig]
  rw [hca]
  rcases hone with ⟨hc, hk⟩ | ⟨hc, hk⟩
  · simp [hc, hk]
  · simp [hc, hk]

/-- C1 amended witness: inline key with no cert, client auth off. -/
theorem loadTLS_partial_pair_silently_disabled_witness :
    ServerPkg.loadTLSConfig ServerPkg.exEnvDefault ServerPkg.cfgKeyOnly =
      Except.ok none :=
  loadTLS_partial_pair_silently_disabled ServerPkg.exEnvDefault
    ServerPkg.cfgKeyOnly none (Or.inl ⟨rfl, by decide⟩) rfl

/-- C3 counterexample: with both inline cert and key empty and no TLS
directory resolvable, but client auth requested with an empty inline CA,
`loadTLSConfig` returns an error, not the claimed silent
`(nil, nil, nil)`. -/
theorem loadTLS_no_material_mtls_cex :
    ServerPkg.isErr
        (ServerPkg.loadTLSConfig ServerPkg.exEnvDefault ServerPkg.cfgMTLSNoCA) =
        true ∧
      ServerPkg.loadTLSConfig ServerPkg.exEnvDefault ServerPkg.cfgMTLSNoCA ≠
        Except.ok none := by
  refine ⟨rfl, ?_⟩
  intro h
  rw [show ServerPkg.loadTLSConfig ServerPkg.exEnvDefault ServerPkg.cfgMTLSNoCA =
      Except.error "cannot find a CA certificate, which is required when `tlsClientAuth` is enabled: no path specified in option `tlsPath`, and no config file was loaded"
    from rfl] at h
  exact Except.noConfusion h

/-- C3 amended: for every configuration with both inline cert and key PEM
empty and no TLS directory resolvable (no `tlsPath`, no loaded config
file), whose client-auth phase does not itself fail, `loadTLSConfig`
returns `(nil, nil, nil)`: TLS disabled, no watch function, no error. -/
theorem loadTLS_no_material_disabled
    (env : ServerPkg.TLSEnv) (cfg : ServerPkg.Config)
    (poolOpt : Option String)
    (hcert : cfg.TLSCertPEM = "") (hkey : cfg.TLSKeyPEM = "")
    (hpath : cfg.TLSPath = "") (hfile : cfg.loadedConfigPath = "")
    (hca : ServerPkg.clientAuthPhase env cfg (ServerPkg.resolveTLSPath env cfg) =
      Except.ok poolOpt) :
    ServerPkg.loadTLSConfig env cfg = Except.ok none := by
  have hp : ServerPkg.resolveTLSPath env cfg = "" := by
    simp [ServerPkg.resolveTLSPath, hpath, hfile]
  simp only [ServerPkg.loadTLSConfig]
  rw [hca]
  simp [hcert, hkey, hp]

/-- C3 amended witness: the all-empty configuration with client auth off. -/
theorem loadTLS_no_material_disabled_witness :
    ServerPkg.loadTLSConfig ServerPkg.exEnvDefault ServerPkg.cfgAllEmpty =
      Except.ok none :=
  loadTLS_no_material_disabled ServerPkg.exEnvDefault ServerPkg.cfgAllEmpty
    none rfl rfl rfl rfl rfl

/-- C4: when mutual-TLS is requested, `loadTLSConfig` returns a non-nil
error whenever the CA bytes cannot be obtained or parsed: inline CA empty
with no resolvable TLS directory, or the read of the fixed CA filename
from that directory fails, or the obtained bytes fail to parse into the
certificate pool. -/
theorem loadTLS_mtls_ca_failure_fatal
    (env : ServerPkg.TLSEnv) (cfg : ServerPkg.Config)
    (hauth : cfg.TLSClientAuth = true)
    (hfail :
      (cfg.TLSCAPEM = "" ∧ ServerPkg.resolveTLSPath env cfg = "") ∨
        (cfg.TLSCAPEM = "" ∧
          ∃ e, env.readFile
              (env.joinPath (ServerPkg.resolveTLSPath env cfg) ServerPkg.tlsCAFile) =
            Except.error e) ∨
        (∃ ca, ServerPkg.loadCABytes env cfg (ServerPkg.resolveTLSPath env cfg) =
            Except.ok ca ∧ env.appendCertsOk ca = false)) :
    ServerPkg.isErr (ServerPkg.loadTLSConfig env cfg) = true := by
  apply ServerPkg.loadTLSConfig_isErr_of_phase
  rcases hfail with ⟨hca0, hp0⟩ | ⟨hca0, e, hre⟩ | ⟨ca, hok, happ⟩
  · apply ServerPkg.clientAuthPhase_isErr_of_ca hauth
    simp [ServerPkg.loadCABytes, hca0, hp0, ServerPkg.isErr]
  · apply ServerPkg.clientAuthPhase_isErr_of_ca hauth
    by_cases hp : ServerPkg.resolveTLSPath env cfg = ""
    · simp [ServerPkg.loadCABytes, hca0, hp, ServerPkg.isErr]
    · simp [ServerPkg.loadCABytes, hca0, hp, hre, ServerPkg.isErr]
  · exact ServerPkg.clientAuthPhase_isErr_of_append hauth hok happ

/-- C4 witness: client auth requested, empty inline CA and no resolvable
directory yields an error result. -/
theorem loadTLS_mtls_ca_failure_fatal_witness :
    ServerPkg.isErr
      (ServerPkg.loadTLSConfig ServerPkg.exEnvDefault ServerPkg.cfgMTLSNoCA) =
      true :=
  loadTLS_mtls_ca_failure_fatal ServerPkg.exEnvDefault ServerPkg.cfgMTLSNoCA
    rfl (Or.inl ⟨rfl, rfl⟩)

/-- C5: whenever `loadTLSConfig` succeeds with a (non-nil) TLS
configuration and the client-auth flag is enabled, the configuration's
client-auth mode is verify-if-given — never require-and-verify — and it
carries the CA pool constructed from the obtained CA bytes. -/
theorem loadTLS_clientAuth_verify_if_given
    (env : ServerPkg.TLSEnv) (cfg : ServerPkg.Config)
    (tc : ServerPkg.TLSConfig) (w : Option ServerPkg.Provider)
    (hauth : cfg.TLSClientAuth = true)
    (hok : ServerPkg.loadTLSConfig env cfg = Except.ok (some (tc, w))) :
    tc.clientAuth = ServerPkg.ClientAuthType.verifyClientCertIfGiven ∧
      tc.clientAuth ≠ ServerPkg.ClientAuthType.requireAndVerifyClientCert ∧
      ∃ ca, tc.clientCAs = some ca ∧ env.appendCertsOk ca = true := by
  simp only [ServerPkg.loadTLSConfig] at hok
  cases hphase : ServerPkg.clientAuthPhase env cfg (ServerPkg.resolveTLSPath env cfg) with
  | error e =>
      rw [hphase] at hok
      exact Except.noConfusion hok
  | ok poolOpt =>
      rw [hphase] at hok
      obtain ⟨ca, hpool, happ⟩ := ServerPkg.clientAuthPhase_ok_elim hauth hphase
      subst hpool
      simp only [] at hok
      split at hok
      · split at hok
        · injection hok with h1
          exact Option.noConfusion h1
        · split at hok
          · exact Except.noConfusion hok
          · injection hok with h1
            exact Option.noConfusion h1
          · injection hok with h1
            injection h1 with h2
            injection h2 with h3 h4
            subst h3
            exact ⟨rfl, fun hbad => ServerPkg.ClientAuthType.noConfusion hbad, ca, rfl, happ⟩
      · split at hok
        · injection hok with h1
          exact Option.noConfusion h1
        · split at hok
          · exact Except.noConfusion hok
          · injection hok with h1
            injection h1 with h2
            injection h2 with h3 h4
            subst h3
            exact ⟨rfl, fun hbad => ServerPkg.ClientAuthType.noConfusion hbad, ca, rfl, happ⟩

/-- C5 witness: client auth with inline CA and an inline cert/key pair
yields a config in verify-if-given mode carrying the CA pool. -/
theorem loadTLS_clientAuth_verify_if_given_witness :
    ServerPkg.exMTLSConfig.clientAuth =
        ServerPkg.ClientAuthType.verifyClientCertIfGiven ∧
      ServerPkg.exMTLSConfig.clientAuth ≠
        ServerPkg.ClientAuthType.requireAndVerifyClientCert ∧
      ∃ ca, ServerPkg.exMTLSConfig.clientCAs = some ca ∧
        ServerPkg.exEnvDefault.appendCertsOk ca = true :=
  loadTLS_clientAuth_verify_if_given ServerPkg.exEnvDefault
    ServerPkg.cfgMTLSInline ServerPkg.exMTLSConfig none rfl rfl

/-- C6 counterexample: a valid inline cert+key pair does not guarantee a
TLS configuration — with client auth requested and no CA obtainable,
`loadTLSConfig` errors out before reaching the pair. -/
theorem loadTLS_inline_pair_cex :
    ServerPkg.isErr
        (ServerPkg.loadTLSConfig ServerPkg.exEnvDefault ServerPkg.cfgMTLSNoCAPair) =
        true ∧
      ServerPkg.exEnvDefault.parseKeyPair ServerPkg.cfgMTLSNoCAPair.TLSCertPEM
          ServerPkg.cfgMTLSNoCAPair.TLSKeyPEM =
        Except.ok { certPEM := "CERT-PEM", keyPEM := "KEY-PEM" } :=
  ⟨rfl, rfl⟩

/-- C6 amended: for every configuration in which both inline cert and key
PEM values are present and form a valid pair, and whose client-auth phase
does not itself fail, `loadTLSConfig` returns a TLS configuration whose
certificate list is exactly the parsed pair (in particular non-empty) and
a nil watch function. -/
theorem loadTLS_inline_pair
    (env : ServerPkg.TLSEnv) (cfg : ServerPkg.Config)
    (cert : ServerPkg.Certificate) (poolOpt : Option String)
    (hcert : cfg.TLSCertPEM ≠ "") (hkey : cfg.TLSKeyPEM ≠ "")
    (hpair : env.parseKeyPair cfg.TLSCertPEM cfg.TLSKeyPEM = Except.ok cert)
    (hca : ServerPkg.clientAuthPhase env cfg (ServerPkg.resolveTLSPath env cfg) =
      Except.ok poolOpt) :
    ServerPkg.loadTLSConfig env cfg =
      Except.ok (some
        ({ minVersion := ServerPkg.minTLSVersion,
           clientAuth :=
             if poolOpt.isSome then ServerPkg.ClientAuthType.verifyClientCertIfGiven
             else ServerPkg.ClientAuthType.noClientCert,
           clientCAs := poolOpt,
           certificates := [cert],
           getCertificate := none }, none)) := by
  simp only [ServerPkg.loadTLSConfig]
  rw [hca]
  simp [hcert, hkey, hpair]

/-- C6 amended witness: a valid inline pair with client auth off produces
the certificate list `[pair]` and no watch function. -/
theorem loadTLS_inline_pair_witness :
    ServerPkg.loadTLSConfig ServerPkg.exEnvDefault
        { TLSPath := "", loadedConfigPath := "", TLSClientAuth := false,
          TLSCAPEM := "", TLSCertPEM := "CERT-PEM", TLSKeyPEM := "KEY-PEM" } =
      Except.ok (some
        ({ minVersion := ServerPkg.minTLSVersion,
           clientAuth :=
             if (none : Option String).isSome then
               ServerPkg.ClientAuthType.verifyClientCertIfGiven
             else ServerPkg.ClientAuthType.noClientCert,
           clientCAs := none,
           certificates := [{ certPEM := "CERT-PEM", keyPEM := "KEY-PEM" }],
           getCertificate := none }, none)) :=
  loadTLS_inline_pair ServerPkg.exEnvDefault
    { TLSPath := "", loadedConfigPath := "", TLSClientAuth := false,
      TLSCAPEM := "", TLSCertPEM := "CERT-PEM", TLSKeyPEM := "KEY-PEM" }
    { certPEM := "CERT-PEM", keyPEM := "KEY-PEM" } none
    (by decide) (by decide) rfl rfl

/-- C2: a `Run` entered while the running flag is already true returns the
"server is already running" error with no events (no listener started, no
state changed) and leaves the flag true; and whenever a `Run` entered with
the flag free returns at all, the flag has been reset to false on that
exit path. -/
theorem run_at_most_one (env : ServerPkg.RunEnv) :
    ServerPkg.run env true =
        { returns := some (Except.error "server is already running"),
          events := [], runningAfter := true } ∧
      ∀ r, (ServerPkg.run env false).returns = some r →
        (ServerPkg.run env false).runningAfter = false := by
  refine ⟨rfl, ?_⟩
  intro r h
  unfold ServerPkg.run at h ⊢
  simp only [Bool.false_eq_true, if_false] at h ⊢
  cases hsa : env.startApp with
  | error e =>
      rw [hsa] at h
      exact ServerPkg.finishRun_returns_runningAfter h
  | ok u =>
      rw [hsa] at h
      by_cases hm : env.enableMetrics = true
      · rw [if_pos hm] at h ⊢
        cases hsm : env.startMetrics with
        | error e =>
            rw [hsm] at h
            exact ServerPkg.finishRun_returns_runningAfter h
        | ok u2 =>
            rw [hsm] at h
            exact ServerPkg.runWatchPhase_returns_runningAfter h
      · rw [if_neg hm] at h ⊢
        exact ServerPkg.runWatchPhase_returns_runningAfter h

/-- C2 witness: a concrete clean environment; the second (flag-true) call
errors with no events, and a returning flag-false call resets the flag. -/
theorem run_at_most_one_witness :
    ServerPkg.run ServerPkg.exRunEnvClean true =
        { returns := some (Except.error "server is already running"),
          events := [], runningAfter := true } ∧
      (ServerPkg.run ServerPkg.exRunEnvClean false).runningAfter = false :=
  ⟨(run_at_most_one ServerPkg.exRunEnvClean).1,
    (run_at_most_one ServerPkg.exRunEnvClean).2 (Except.ok ()) rfl⟩

/-- C7: in every execution in which both servers were started, `Run`
performs shutdown in reverse-acquisition order — the metrics server's
shutdown event precedes the application server's shutdown event, which
precedes the wait on the wait-group — the wait-group wait completes
within the trace, and `Run` does return (the trace, hence the waiting, is
complete before the return). -/
theorem run_shutdown_reverse_order (env : ServerPkg.RunEnv)
    (hsa : env.startApp = Except.ok ())
    (hm : env.enableMetrics = true)
    (hsm : env.startMetrics = Except.ok ()) :
    ServerPkg.RunEvent.wgWait ∈ (ServerPkg.run env false).events ∧
      (ServerPkg.run env false).events.findIdx ServerPkg.isShutdownMetricsEv <
        (ServerPkg.run env false).events.findIdx ServerPkg.isShutdownAppEv ∧
      (ServerPkg.run env false).events.findIdx ServerPkg.isShutdownAppEv <
        (ServerPkg.run env false).events.findIdx ServerPkg.isWgWaitEv ∧
      (ServerPkg.run env false).returns ≠ none := by
  cases hw : env.tlsCertWatchFn with
  | none =>
      simp [ServerPkg.run, ServerPkg.runWatchPhase, ServerPkg.finishRun,
        ServerPkg.execDeferreds, hsa, hm, hsm, hw, ServerPkg.isShutdownMetricsEv,
        ServerPkg.isShutdownAppEv, ServerPkg.isWgWaitEv, List.findIdx_cons]
  | some res =>
      cases res with
      | error e =>
          simp [ServerPkg.run, ServerPkg.runWatchPhase, ServerPkg.finishRun,
            ServerPkg.execDeferreds, hsa, hm, hsm, hw,
            ServerPkg.isShutdownMetricsEv, ServerPkg.isShutdownAppEv,
            ServerPkg.isWgWaitEv, List.findIdx_cons]
      | ok u =>
          simp [ServerPkg.run, ServerPkg.runWatchPhase, ServerPkg.finishRun,
            ServerPkg.execDeferreds, hsa, hm, hsm, hw,
            ServerPkg.isShutdownMetricsEv, ServerPkg.isShutdownAppEv,
            ServerPkg.isWgWaitEv, List.findIdx_cons]

/-- C7 witness: the clean concrete environment with both servers started. -/
theorem run_shutdown_reverse_order_witness :
    ServerPkg.RunEvent.wgWait ∈
        (ServerPkg.run ServerPkg.exRunEnvClean false).events ∧
      (ServerPkg.run ServerPkg.exRunEnvClean false).events.findIdx
          ServerPkg.isShutdownMetricsEv <
        (ServerPkg.run ServerPkg.exRunEnvClean false).events.findIdx
          ServerPkg.isShutdownAppEv ∧
      (ServerPkg.run ServerPkg.exRunEnvClean false).events.findIdx
          ServerPkg.isShutdownAppEv <
        (ServerPkg.run ServerPkg.exRunEnvClean false).events.findIdx
          ServerPkg.isWgWaitEv ∧
      (ServerPkg.run ServerPkg.exRunEnvClean false).returns ≠ none :=
  run_shutdown_reverse_order ServerPkg.exRunEnvClean rfl rfl rfl

/-- C8: if the watch function is present and fails, `Run` returns an error
wrapping it and the already-started listeners are still shut down through
the deferred hooks (their shutdown events are in the trace); and on clean
cancellation (no watch function, or a watch function that returns nil)
`Run` returns nil even when the deferred shutdown calls report errors. -/
theorem run_watch_error_and_clean (env : ServerPkg.RunEnv) (e : String)
    (hsa : env.startApp = Except.ok ())
    (hsm : env.enableMetrics = true → env.startMetrics = Except.ok ()) :
    (env.tlsCertWatchFn = some (Except.error e) →
        (ServerPkg.run env false).returns =
            some (Except.error ("failed to watch for TLS certificates: " ++ e)) ∧
          ServerPkg.RunEvent.shutdownAppSrv env.appShutdownErr ∈
            (ServerPkg.run env false).events ∧
          (env.enableMetrics = true →
            ServerPkg.RunEvent.shutdownMetricsSrv env.metricsShutdownErr ∈
              (ServerPkg.run env false).events)) ∧
      ((env.tlsCertWatchFn = none ∨ env.tlsCertWatchFn = some (Except.ok ())) →
        (ServerPkg.run env false).returns = some (Except.ok ())) := by
  constructor
  · intro hw
    by_cases hm : env.enableMetrics = true
    · refine ⟨?_, ?_, fun _ => ?_⟩ <;>
        simp [ServerPkg.run, ServerPkg.runWatchPhase, ServerPkg.finishRun,
          ServerPkg.execDeferreds, hsa, hm, hsm hm, hw]
    · refine ⟨?_, ?_, fun hmm => absurd hmm hm⟩ <;>
        simp [ServerPkg.run, ServerPkg.runWatchPhase, ServerPkg.finishRun,
          ServerPkg.execDeferreds, hsa, hm, hw]
  · intro hw
    by_cases hm : env.enableMetrics = true
    · rcases hw with hw | hw <;>
        simp [ServerPkg.run, ServerPkg.runWatchPhase, ServerPkg.finishRun,
          ServerPkg.execDeferreds, hsa, hm, hsm hm, hw]
    · rcases hw with hw | hw <;>
        simp [ServerPkg.run, ServerPkg.runWatchPhase, ServerPkg.finishRun,
          ServerPkg.execDeferreds, hsa, hm, hw]

/-- C8 witness: a failing watch in one concrete environment (error
propagated, both shutdown hooks fired), and a clean cancellation in
another where both shutdowns report errors yet `Run` returns nil. -/
theorem run_watch_error_and_clean_witness :
    (ServerPkg.run ServerPkg.exRunEnvWatchErr false).returns =
        some (Except.error "failed to watch for TLS certificates: inotify failure") ∧
      ServerPkg.RunEvent.shutdownAppSrv (some "shutdown timeout") ∈
        (ServerPkg.run ServerPkg.exRunEnvWatchErr false).events ∧
      ServerPkg.RunEvent.shutdownMetricsSrv (some "already closed") ∈
        (ServerPkg.run ServerPkg.exRunEnvWatchErr false).events ∧
      (ServerPkg.run ServerPkg.exRunEnvClean false).returns =
        some (Except.ok ()) :=
  have h1 := (run_watch_error_and_clean ServerPkg.exRunEnvWatchErr
    "inotify failure" rfl (fun _ => rfl)).1 rfl
  have h2 := (run_watch_error_and_clean ServerPkg.exRunEnvClean
    "unused" rfl (fun _ => rfl)).2 (Or.inl rfl)
  ⟨h1.1, h1.2.1, h1.2.2 rfl, h2⟩
